import Mathlib

/-!
Verification of the asynchronous AI job-tracking core of `aissistant.py`
(Flask blueprint: job dispatcher, job registry, external tool invoker and
audit log store), as a shallow embedding in Lean 4.

Conventions of the embedding:
* Python strings are `String`; SQLite rows are structures with `Option`
  fields for nullable columns; `CURRENT_TIMESTAMP` and `time.time()` are
  supplied as explicit `Nat` clock parameters.
* JSON request bodies are modelled by `ReqBody`: a JSON object whose field
  values are strings, or any non-object JSON value (`nondict`), for which
  Python's `data.get(...)` raises `AttributeError`.
* Environmental outcomes (presence of the `claude` executable, the result
  of `subprocess.run`, `git rev-parse`, and sqlite connection failures) are
  supplied through an `Env` record / explicit `fail` flags; each branch of
  the source's `try/except` ladder corresponds to one constructor.
-/

/-- Python exception raised inside the background task; the only raise site
reachable in `process_ai_job`'s `try:` block in this model is
`data.get(...)` on a non-dict request body (`AttributeError`). -/
inductive PyExc where
  | attributeError (msg : String)
deriving Repr, DecidableEq

/-- Message of `str(e)` for the modelled exception. -/
def pyExcMsg : PyExc → String
  | .attributeError m => m

/-- Message Python produces for `data.get` on a non-dict value of type `tn`. -/
def attr_get_msg (tn : String) : String :=
  "\x27" ++ tn ++ "\x27 object has no attribute \x27get\x27"

/-- Parsed JSON request body: either a JSON object (field values restricted
to strings, which is all the routes consume) or a non-object value, carrying
its Python type name and truthiness. -/
inductive ReqBody where
  | dict (fields : List (String × String))
  | nondict (typeName : String) (truthy : Bool)
deriving Repr, DecidableEq

/-- Python truthiness of a request body (`{}` and falsy non-dicts are falsy). -/
def reqTruthy : ReqBody → Bool
  | .dict fields => !fields.isEmpty
  | .nondict _ t => t

/-- Models `request.json or {}` in the routes. -/
def or_empty_dict : Option ReqBody → ReqBody
  | none => .dict []
  | some b => if reqTruthy b then b else .dict []

/-- Models `fields.get(key, dflt)` on a JSON object with string values. -/
def getS (fields : List (String × String)) (key dflt : String) : String :=
  (fields.lookup key).getD dflt

/-- One row of the `prompt_history` table (see `init_db`). -/
structure AuditRow where
  id : Nat
  timestamp : Nat
  prompt : String
  context : String
  response : Option String
  git_hash_before : String
  git_hash_after : Option String
  job_id : Option String
  job_status : Option String
deriving Repr, DecidableEq

/-- The audit-log database: the `prompt_history` table plus the next
AUTOINCREMENT id. -/
structure DB where
  rows : List AuditRow
  nextId : Nat
deriving Repr, DecidableEq

/-- Outcome of the `subprocess.run(command, ...)` call in
`handle_ai_request`, one constructor per `except` branch (plus parsed
stdout for the success path: `none` models a `json.JSONDecodeError`). -/
inductive ExecOutcome where
  | run_ok (parsed : Option (List (String × String)))
  | timeout_expired
  | called_process_error (stderr : String)
  | unexpected_exc (msg : String)
deriving Repr, DecidableEq

/-- Environment of one background job execution. -/
structure Env where
  gitHash : Option String
  claudeOnPath : Bool
  exec : ExecOutcome
  logFail : Bool
  updateFail : Bool
deriving Repr, DecidableEq

/-- Result dictionary returned by `handle_ai_request` (lines 119-172);
absent keys are `none`. -/
structure AIResult where
  success : Bool
  output : Option String
  raw : Option (List (String × String))
  error : Option String
  prompt_for_clipboard : Option String
deriving Repr, DecidableEq

/-- One entry of the in-memory `AI_JOBS` registry; absent dict keys are
`none`. -/
structure JobEntry where
  status : String
  timestamp : Nat
  result : Option AIResult
  error : Option String
deriving Repr, DecidableEq

/-- The `AI_JOBS` registry: job id to entry. -/
def Jobs : Type := String → Option JobEntry

/-- Dict assignment `AI_JOBS[job_id] = e`. -/
def jobsSet (jobs : Jobs) (job_id : String) (e : JobEntry) : Jobs :=
  fun k => if k = job_id then some e else jobs k

/-- Empty registry. -/
def jobs0 : Jobs := fun _ => none

/-- Models `get_git_hash` (lines 55-59): short revision or `"unknown"` on
any failure. -/
def get_git_hash (env : Env) : String :=
  match env.gitHash with
  | some h => h
  | none => "unknown"

/-- Models `log_prompt` (lines 61-71): best-effort INSERT into
`prompt_history`; a sqlite failure (`env.logFail`) is swallowed. -/
def log_prompt (env : Env) (db : DB) (prompt context : String)
    (job_id : Option String) (status : String) (now : Nat) : DB :=
  if env.logFail then db
  else
    { rows := db.rows ++
        [{ id := db.nextId, timestamp := now, prompt := prompt,
           context := context, response := none,
           git_hash_before := get_git_hash env, git_hash_after := none,
           job_id := job_id, job_status := some status }],
      nextId := db.nextId + 1 }

/-- Models `update_job_status` (lines 73-81): best-effort UPDATE of
`job_status` for all rows with the given `job_id`; a missing db path or a
sqlite failure is swallowed. -/
def update_job_status (env : Env) (dbPresent : Bool) (db : DB)
    (job_id status : String) : DB :=
  if dbPresent = false ∨ env.updateFail then db
  else
    { db with rows := db.rows.map fun r =>
        if r.job_id = some job_id then { r with job_status := some status } else r }

/-- Rows sorted by `timestamp` DESC, as `ORDER BY timestamp DESC`. -/
def sortDesc (rows : List AuditRow) : List AuditRow :=
  rows.mergeSort fun a b => decide (b.timestamp ≤ a.timestamp)

/-- SQLite `LIMIT ? OFFSET ?` semantics: a negative OFFSET skips nothing, a
negative LIMIT means no limit. -/
def sqlWindow (rows : List AuditRow) (limit offset : Int) : List AuditRow :=
  let afterOffset := if offset ≤ 0 then rows else rows.drop offset.toNat
  if limit < 0 then afterOffset else afterOffset.take limit.toNat

/-- Return value of `get_history`. -/
structure HistoryResult where
  history : List AuditRow
  total : Nat
  error : Option String
deriving Repr, DecidableEq

/-- Models `get_history` (lines 83-96): a COUNT(*) of the whole table plus
a `SELECT * ORDER BY timestamp DESC LIMIT ? OFFSET ?` window; on a sqlite
failure it returns an empty page with an error message. -/
def get_history (fail : Bool) (db : DB) (limit offset : Int) : HistoryResult :=
  if fail then { history := [], total := 0, error := some "db error" }
  else { history := sqlWindow (sortDesc db.rows) limit offset,
         total := db.rows.length, error := none }

/-- Models `update_history_commit` (lines 98-108): an unconditional UPDATE
of `git_hash_after` for the row(s) with the given id, returning `true`
regardless of the number of affected rows, and `false` exactly when the
store operation raises. -/
def update_history_commit (fail : Bool) (db : DB) (hist_id : Nat)
    (commit_hash : Option String) : DB × Bool :=
  if fail then (db, false)
  else
    ({ db with rows := db.rows.map fun r =>
        if r.id = hist_id then { r with git_hash_after := commit_hash } else r },
     true)

/-- Models line 127: the combined instruction sent to the tool,
`f"Context:\n{context}\n\nTask: {prompt}" if context else prompt`. -/
def full_prompt (prompt context : String) : String :=
  if context = "" then prompt
  else "Context:\n" ++ context ++ "\n\nTask: " ++ prompt

/-- Models line 123: the fallback clipboard payload,
`f"Task: {prompt}\n\nContext HTML:\n{context}"`. -/
def prompt_for_clipboard_text (prompt context : String) : String :=
  "Task: " ++ prompt ++ "\n\nContext HTML:\n" ++ context

/-- Models lines 130-137: the argument list of the external tool call. -/
def claude_command (model fullPrompt : String) : List String :=
  ["claude", "completion", "--model", model, "--prompt", fullPrompt,
   "--system-prompt", "You are a concise AI assistant who edits HTML code.",
   "--format", "json"]

/-- Whitespace characters removed by Python's `str.strip()`. -/
def pyIsSpace (c : Char) : Bool :=
  c = ' ' || c = '\t' || c = '\n' || c = '\r' || c = '\x0b' || c = '\x0c'

/-- Models Python's `str.strip()`: drops leading and trailing whitespace. -/
def pyStrip (s : String) : String :=
  String.mk (((s.data.dropWhile pyIsSpace).reverse.dropWhile pyIsSpace).reverse)

/-- Models lines 119-172 of `handle_ai_request`: the tool-presence check,
the subprocess call and the whole `try/except` ladder, as a pure function
of the environment. -/
def tool_result (env : Env) (prompt context : String) : AIResult :=
  if env.claudeOnPath = false then
    { success := false, output := none, raw := none,
      error := some "Claude CLI not found. Please install anthracite-cli.",
      prompt_for_clipboard := some (prompt_for_clipboard_text prompt context) }
  else
    match env.exec with
    | .run_ok (some claude_output) =>
        let generated_text := pyStrip ((claude_output.lookup "completion").getD "")
        let generated_text :=
          if generated_text = "" then "No content returned from AI." else generated_text
        { success := true, output := some generated_text,
          raw := some claude_output, error := none, prompt_for_clipboard := none }
    | .run_ok none =>
        { success := false, output := none, raw := none,
          error := some "Failed to parse AI response as JSON.",
          prompt_for_clipboard := none }
    | .timeout_expired =>
        { success := false, output := none, raw := none,
          error := some "AI request timed out (45s limit).",
          prompt_for_clipboard := none }
    | .called_process_error stderr =>
        { success := false, output := none, raw := none,
          error := some ("CLI execution failed: " ++ stderr),
          prompt_for_clipboard := none }
    | .unexpected_exc msg =>
        { success := false, output := none, raw := none,
          error := some ("Unexpected error: " ++ msg),
          prompt_for_clipboard := none }

/-- Models `handle_ai_request` (lines 110-172): extracts `prompt`,
`context`, `model` (raising `AttributeError` on a non-dict body), logs the
request to the database when a db path is configured, then runs the tool.
Returns the result dict and the updated database, or the uncaught
exception. -/
def handle_ai_request (env : Env) (data : ReqBody) (dbPresent : Bool)
    (job_id : Option String) (db : DB) (now : Nat) :
    Except PyExc (AIResult × DB) :=
  match data with
  | .nondict tn _ => .error (.attributeError (attr_get_msg tn))
  | .dict fields =>
      let prompt := getS fields "prompt" ""
      let context := getS fields "context" ""
      let db1 := if dbPresent then log_prompt env db prompt context job_id "processing" now
                 else db
      .ok (tool_result env prompt context, db1)

/-- Models `process_ai_job` (lines 176-200): runs `handle_ai_request`; on a
normal return writes a `completed` registry entry carrying the result dict
(and updates the audit row to `completed`/`failed`); on an uncaught
exception writes an `error` registry entry carrying `str(e)` (and
best-effort updates the audit row to `error`). -/
def process_ai_job (env : Env) (job_id : String) (data : ReqBody)
    (dbPresent : Bool) (db : DB) (jobs : Jobs) (t : Nat) : DB × Jobs :=
  match handle_ai_request env data dbPresent (some job_id) db t with
  | .ok (result, db1) =>
      let status := if result.success then "completed" else "failed"
      let db2 := update_job_status env dbPresent db1 job_id status
      (db2, jobsSet jobs job_id
        { status := "completed", timestamp := t, result := some result, error := none })
  | .error e =>
      let db2 := update_job_status env dbPresent db job_id "error"
      (db2, jobsSet jobs job_id
        { status := "error", timestamp := t, result := none, error := some (pyExcMsg e) })

/-- Lowercase hexadecimal digit for `n < 16`. -/
def hexDigit (n : Nat) : Char :=
  if n < 10 then Char.ofNat (48 + n) else Char.ofNat (87 + n)

/-- Two-digit lowercase hex rendering of one byte. -/
def byteHex (b : Nat) : List Char :=
  [hexDigit (b / 16), hexDigit (b % 16)]

/-- Models `secrets.token_hex` applied to the given random bytes. -/
def token_hex (bytes : List Nat) : String :=
  String.mk (List.flatten (bytes.map byteHex))

/-- Number of random bytes requested on line 207: `secrets.token_hex(8)`. -/
def ask_ai_token_nbytes : Nat := 8

/-- Response body and code of `POST /api/ask-ai`. -/
structure SubmitResponse where
  success : Bool
  job_id : String
  status : String
  message : String
  http_code : Nat
deriving Repr, DecidableEq

/-- Models `api_ask_ai` (lines 204-219) up to the thread spawn: normalizes
the body, draws the job id from the random bytes, registers the job as
`processing`, and returns the 202 response. The spawned background task is
modelled separately by the event-trace semantics below. -/
def api_ask_ai (body : Option ReqBody) (randBytes : List Nat) (jobs : Jobs)
    (t : Nat) : Jobs × String × SubmitResponse :=
  let _data := or_empty_dict body
  let job_id := token_hex randBytes
  let jobs1 := jobsSet jobs job_id
    { status := "processing", timestamp := t, result := none, error := none }
  (jobs1, job_id,
   { success := true, job_id := job_id, status := "processing",
     message := "AI task started in background", http_code := 202 })

/-- Response of `GET /api/ai-status/<job_id>`. -/
inductive StatusResponse where
  | entry (e : JobEntry)
  | notFound
deriving Repr, DecidableEq

/-- Models `api_ai_status` (lines 221-225): the registry entry, or a 404
when the id is unknown. -/
def api_ai_status (jobs : Jobs) (job_id : String) : StatusResponse :=
  match jobs job_id with
  | some e => .entry e
  | none => .notFound

/-- Response of `GET /api/ai/history`. -/
structure HistoryResponse where
  success : Bool
  history : List AuditRow
  total : Nat
  error : Option String
deriving Repr, DecidableEq

/-- Models `api_ai_history_route` (lines 227-239): computes
`offset = (page - 1) * limit` and wraps `get_history`. -/
def api_ai_history_route (fail : Bool) (db : DB) (page limit : Int) :
    HistoryResponse :=
  let offset := (page - 1) * limit
  let r := get_history fail db limit offset
  { success := true, history := r.history, total := r.total, error := r.error }

/-- Response of `PUT /api/ai/history/<hist_id>`. -/
structure UpdateResponse where
  success : Bool
  error : Option String
  http_code : Nat
deriving Repr, DecidableEq

/-- Models `api_update_history_route` (lines 241-248): reads
`commit_hash` from the body (`none` when the body is absent or lacks the
key, raising on a truthy non-dict body) and runs the unconditional
update. -/
def api_update_history_route (fail : Bool) (db : DB) (hist_id : Nat)
    (body : Option ReqBody) : Except PyExc (DB × UpdateResponse) :=
  match or_empty_dict body with
  | .nondict tn _ => .error (.attributeError (attr_get_msg tn))
  | .dict fields =>
      let commit_hash := fields.lookup "commit_hash"
      match update_history_commit fail db hist_id commit_hash with
      | (db1, true) => .ok (db1, { success := true, error := none, http_code := 200 })
      | (db1, false) =>
          .ok (db1, { success := false, error := some "Update failed", http_code := 500 })

/-!
Event-trace semantics of one submission.

`api_ask_ai` performs `AI_JOBS[job_id] = {...}` (line 208), then
`t.start()` (line 212), then returns (line 214); the spawned thread runs
`process_ai_job`, whose observable steps are the audit INSERT inside
`handle_ai_request`, the `shutil.which` check, the subprocess call, the
audit UPDATE and the final registry write. A full execution is the two
program orders interleaved, with every background event after
`threadStart`.
-/

/-- Observable events of one submission and its background task. -/
inductive Event where
  | registryCreate (jobId : String) (t : Nat)
  | threadStart
  | httpReturn (jobId : String)
  | auditInsert (jobId : Option String) (status : String)
  | whichCheck
  | subprocessRun
  | auditUpdate (jobId : String) (status : String)
  | registrySet (jobId : String) (entry : JobEntry)
deriving Repr, DecidableEq

/-- Decides whether `zs` is an interleaving of `xs` and `ys` (each kept in
order). -/
def interleavesB {α : Type} [DecidableEq α] : List α → List α → List α → Bool
  | [], [], [] => true
  | _, _, [] => false
  | xs, ys, z :: zs =>
      (match xs with
       | x :: xs2 => decide (x = z) && interleavesB xs2 ys zs
       | [] => false)
      ||
      (match ys with
       | y :: ys2 => decide (y = z) && interleavesB xs ys2 zs
       | [] => false)

/-- Program order of the background task `process_ai_job`, derived from the
same source lines as the state-level definition: on a non-dict body the
`AttributeError` is raised before any audit write; on a dict body the audit
INSERT (when the db is configured and the INSERT succeeds) precedes the
`shutil.which` check, which precedes the subprocess call (executed only
when the tool is on the path), the audit UPDATE and the registry write. -/
def bgEvents (env : Env) (job_id : String) (data : ReqBody) (dbPresent : Bool)
    (t : Nat) : List Event :=
  match data with
  | .nondict tn _ =>
      (if dbPresent = true ∧ env.updateFail = false
       then [Event.auditUpdate job_id "error"] else [])
      ++ [Event.registrySet job_id
            { status := "error", timestamp := t, result := none,
              error := some (attr_get_msg tn) }]
  | .dict fields =>
      let prompt := getS fields "prompt" ""
      let context := getS fields "context" ""
      let r := tool_result env prompt context
      (if dbPresent = true ∧ env.logFail = false
       then [Event.auditInsert (some job_id) "processing"] else [])
      ++ (if env.claudeOnPath then [Event.whichCheck, Event.subprocessRun]
          else [Event.whichCheck])
      ++ (if dbPresent = true ∧ env.updateFail = false
          then [Event.auditUpdate job_id (if r.success then "completed" else "failed")]
          else [])
      ++ [Event.registrySet job_id
            { status := "completed", timestamp := t, result := some r, error := none }]

/-- Effect of one event on the `AI_JOBS` registry. -/
def applyEvent (jobs : Jobs) : Event → Jobs
  | .registryCreate jid t =>
      jobsSet jobs jid { status := "processing", timestamp := t, result := none, error := none }
  | .registrySet jid e => jobsSet jobs jid e
  | _ => jobs

/-- Registry state after a sequence of events. -/
def runJobs (events : List Event) (jobs : Jobs) : Jobs :=
  events.foldl applyEvent jobs

/-- Valid full traces of one submission: the registry create strictly
precedes the thread start, after which the HTTP return and the background
events interleave arbitrarily. -/
def ValidTrace (env : Env) (job_id : String) (data : ReqBody)
    (dbPresent : Bool) (t tbg : Nat) (tr : List Event) : Prop :=
  ∃ mix, interleavesB [Event.httpReturn job_id] (bgEvents env job_id data dbPresent tbg) mix = true ∧
    tr = Event.registryCreate job_id t :: Event.threadStart :: mix

/-- Helper predicate: the candidate event is an audit INSERT. -/
def isAuditInsertEv : Event → Bool
  | .auditInsert _ _ => true
  | _ => false

/-- Formalization of the ordering stated by the spec for the audit INSERT:
some audit INSERT occurs strictly before the thread start. -/
def auditInsertBeforeThreadStartB (tr : List Event) : Bool :=
  (List.range tr.length).any fun i =>
    (List.range tr.length).any fun j =>
      decide (i < j) && ((tr.get? i).any isAuditInsertEv) &&
        decide (tr.get? j = some Event.threadStart)

/-!
Helper lemmas about interleavings and the registry trace semantics.
-/

/-- An interleaving is a permutation of the concatenation of its threads. -/
theorem interleavesB_perm {α : Type} [DecidableEq α] :
    ∀ (zs xs ys : List α), interleavesB xs ys zs = true → (xs ++ ys).Perm zs := by
  intro zs
  induction zs with
  | nil =>
      intro xs ys h
      cases xs with
      | nil =>
          cases ys with
          | nil => simp
          | cons y ys2 => simp [interleavesB] at h
      | cons x xs2 => simp [interleavesB] at h
  | cons z zs ih =>
      intro xs ys h
      cases xs with
      | nil =>
          cases ys with
          | nil => simp [interleavesB] at h
          | cons y ys2 =>
              simp only [interleavesB, Bool.or_eq_true, Bool.and_eq_true,
                decide_eq_true_eq] at h
              rcases h with h | ⟨rfl, h⟩
              · exact absurd h (by simp)
              · simpa using (ih [] ys2 h).cons y
      | cons x xs2 =>
          cases ys with
          | nil =>
              simp only [interleavesB, Bool.or_eq_true, Bool.and_eq_true,
                decide_eq_true_eq] at h
              rcases h with ⟨rfl, h⟩ | h
              · simpa using (ih xs2 [] h).cons x
              · exact absurd h (by simp)
          | cons y ys2 =>
              simp only [interleavesB, Bool.or_eq_true, Bool.and_eq_true,
                decide_eq_true_eq] at h
              rcases h with ⟨rfl, h⟩ | ⟨rfl, h⟩
              · simpa using (ih xs2 (y :: ys2) h).cons x
              · exact (List.perm_middle).trans ((ih (x :: xs2) ys2 h).cons y)

/-- Splitting an interleaving at the head of the second thread: everything
before it comes from the first thread. -/
theorem interleavesB_cons_right {α : Type} [DecidableEq α] :
    ∀ (zs xs : List α) (y : α) (ys : List α),
      interleavesB xs (y :: ys) zs = true →
      ∃ xs1 xs2 r, xs = xs1 ++ xs2 ∧ zs = xs1 ++ y :: r ∧
        interleavesB xs2 ys r = true := by
  intro zs
  induction zs with
  | nil =>
      intro xs y ys h
      cases xs <;> simp [interleavesB] at h
  | cons z zs ih =>
      intro xs y ys h
      cases xs with
      | nil =>
          simp only [interleavesB, Bool.or_eq_true, Bool.and_eq_true,
            decide_eq_true_eq] at h
          rcases h with h | ⟨rfl, h⟩
          · exact absurd h (by simp)
          · exact ⟨[], [], zs, by simp, by simp, h⟩
      | cons x xs2 =>
          simp only [interleavesB, Bool.or_eq_true, Bool.and_eq_true,
            decide_eq_true_eq] at h
          rcases h with ⟨rfl, h⟩ | ⟨rfl, h⟩
          · obtain ⟨a, b, r, rfl, rfl, hr⟩ := ih xs2 y ys h
            exact ⟨x :: a, b, r, rfl, rfl, hr⟩
          · exact ⟨[], x :: xs2, zs, by simp, by simp, h⟩

/-- Applying one event never deletes a registry key. -/
theorem applyEvent_isSome (jobs : Jobs) (e : Event) (jid : String)
    (h : (jobs jid).isSome = true) : ((applyEvent jobs e) jid).isSome = true := by
  cases e with
  | registryCreate jid2 t2 =>
      simp only [applyEvent, jobsSet]
      split
      · simp
      · exact h
  | registrySet jid2 en =>
      simp only [applyEvent, jobsSet]
      split
      · simp
      · exact h
  | threadStart => exact h
  | httpReturn _ => exact h
  | auditInsert _ _ => exact h
  | whichCheck => exact h
  | subprocessRun => exact h
  | auditUpdate _ _ => exact h

/-- An event that is neither a create nor a set for `jid` leaves the entry
of `jid` unchanged. -/
theorem applyEvent_no_write (jobs : Jobs) (e : Event) (jid : String)
    (hset : ∀ en, e ≠ Event.registrySet jid en)
    (hcr : ∀ t2, e ≠ Event.registryCreate jid t2) :
    (applyEvent jobs e) jid = jobs jid := by
  cases e with
  | registryCreate jid2 t2 =>
      simp only [applyEvent, jobsSet]
      rw [if_neg]
      intro hk
      exact hcr t2 (by rw [hk])
  | registrySet jid2 en =>
      simp only [applyEvent, jobsSet]
      rw [if_neg]
      intro hk
      exact hset en (by rw [hk])
  | threadStart => rfl
  | httpReturn _ => rfl
  | auditInsert _ _ => rfl
  | whichCheck => rfl
  | subprocessRun => rfl
  | auditUpdate _ _ => rfl

/-- Once present, a registry entry stays present along any event sequence. -/
theorem runJobs_isSome :
    ∀ (es : List Event) (jobs : Jobs) (jid : String),
      (jobs jid).isSome = true → ((runJobs es jobs) jid).isSome = true := by
  intro es
  induction es with
  | nil => intro jobs jid h; exact h
  | cons e es ih =>
      intro jobs jid h
      exact ih (applyEvent jobs e) jid (applyEvent_isSome jobs e jid h)

/-- A sequence containing no create and no set for `jid` leaves the entry
of `jid` unchanged. -/
theorem runJobs_no_write :
    ∀ (es : List Event) (jobs : Jobs) (jid : String),
      (∀ en, Event.registrySet jid en ∉ es) →
      (∀ t2, Event.registryCreate jid t2 ∉ es) →
      (runJobs es jobs) jid = jobs jid := by
  intro es
  induction es with
  | nil => intro jobs jid _ _; rfl
  | cons e es ih =>
      intro jobs jid hset hcr
      have h1 : (runJobs es (applyEvent jobs e)) jid = (applyEvent jobs e) jid :=
        ih (applyEvent jobs e) jid
          (fun en hmem => hset en (List.mem_cons_of_mem e hmem))
          (fun t2 hmem => hcr t2 (List.mem_cons_of_mem e hmem))
      have h2 : (applyEvent jobs e) jid = jobs jid :=
        applyEvent_no_write jobs e jid
          (fun en he => hset en (he ▸ List.mem_cons_self e es))
          (fun t2 he => hcr t2 (he ▸ List.mem_cons_self e es))
      exact h1.trans h2

/-- The background trace never creates a registry entry; the dispatcher
alone does. -/
theorem bgEvents_no_registryCreate (env : Env) (jid : String) (data : ReqBody)
    (dbP : Bool) (t : Nat) (jid2 : String) (t2 : Nat) :
    Event.registryCreate jid2 t2 ∉ bgEvents env jid data dbP t := by
  cases data with
  | nondict tn tru =>
      simp only [bgEvents, List.mem_append, List.mem_singleton]
      intro h
      rcases h with h | h
      · split at h <;> simp_all
      · simp_all
  | dict fields =>
      simp only [bgEvents, List.mem_append, List.mem_singleton]
      intro h
      rcases h with ((h | h) | h) | h
      · split at h <;> simp_all
      · split at h <;> simp_all
      · split at h <;> simp_all
      · simp_all

/-- Consistency of the two views of the background task: folding the
background trace over the registry produces exactly the registry update of
`process_ai_job`. -/
theorem runJobs_bgEvents (env : Env) (jid : String) (data : ReqBody)
    (dbP : Bool) (db : DB) (jobs : Jobs) (t : Nat) :
    runJobs (bgEvents env jid data dbP t) jobs =
      (process_ai_job env jid data dbP db jobs t).2 := by
  cases data with
  | nondict tn tru =>
      simp only [bgEvents, process_ai_job, handle_ai_request, runJobs]
      split <;> simp [applyEvent, pyExcMsg]
  | dict fields =>
      simp only [bgEvents, process_ai_job, handle_ai_request, runJobs]
      by_cases h1 : dbP = true ∧ env.logFail = false <;>
        by_cases h2 : env.claudeOnPath <;>
          by_cases h3 : dbP = true ∧ env.updateFail = false <;>
            simp [h1, h2, h3, applyEvent] <;>
              (try split <;> simp [applyEvent])

/-- C1: for every submission, the job is registered in `AI_JOBS` with
status `processing` and a creation timestamp before the background thread
is started and before the job id is returned to the caller; hence a poll
of `api_ai_status` on that id at any point after the registry create never
returns `notFound`, and returns the `processing` entry until the background
task writes its terminal entry. -/
theorem submit_registry_create_precedes_start_and_return
    (env : Env) (jid : String) (data : ReqBody) (dbP : Bool) (t tbg : Nat)
    (tr : List Event) (jobs₀ : Jobs)
    (h : ValidTrace env jid data dbP t tbg tr) :
    tr.get? 0 = some (Event.registryCreate jid t) ∧
    tr.get? 1 = some Event.threadStart ∧
    Event.httpReturn jid ∈ tr.drop 2 ∧
    (∀ p q, p ++ q = tr → p ≠ [] →
      api_ai_status (runJobs p jobs₀) jid ≠ StatusResponse.notFound ∧
      ((∀ en, Event.registrySet jid en ∉ p) →
        api_ai_status (runJobs p jobs₀) jid =
          StatusResponse.entry
            { status := "processing", timestamp := t, result := none, error := none })) := by
  obtain ⟨mix, hmix, rfl⟩ := h
  have hperm := interleavesB_perm mix [Event.httpReturn jid]
    (bgEvents env jid data dbP tbg) hmix
  refine ⟨rfl, rfl, ?_, ?_⟩
  · have hm : Event.httpReturn jid ∈
        ([Event.httpReturn jid] ++ bgEvents env jid data dbP tbg) := by simp
    simpa using hperm.subset hm
  · intro p q hpq hne
    cases p with
    | nil => exact absurd rfl hne
    | cons a p2 =>
        rw [List.cons_append] at hpq
        injection hpq with ha htail
        subst ha
        have hstep : runJobs (Event.registryCreate jid t :: p2) jobs₀ =
            runJobs p2 (jobsSet jobs₀ jid
              { status := "processing", timestamp := t, result := none, error := none }) := rfl
        have hbase : ((jobsSet jobs₀ jid
            { status := "processing", timestamp := t, result := none, error := none }) jid).isSome
              = true := by simp [jobsSet]
        have hsome := runJobs_isSome p2 _ jid hbase
        constructor
        · rcases Option.isSome_iff_exists.mp hsome with ⟨en, hen⟩
          rw [hstep]
          simp [api_ai_status, hen]
        · intro hnoset
          have hset2 : ∀ en, Event.registrySet jid en ∉ p2 := fun en hmem =>
            hnoset en (List.mem_cons_of_mem _ hmem)
          have hcr2 : ∀ t2, Event.registryCreate jid t2 ∉ p2 := by
            intro t2 hmem
            have hin : Event.registryCreate jid t2 ∈ Event.threadStart :: mix := by
              rw [← htail]
              exact List.mem_append_left q hmem
            rcases List.mem_cons.mp hin with hin | hin
            · exact Event.noConfusion hin
            · have := hperm.symm.subset hin
              rcases List.mem_append.mp this with hin2 | hin2
              · simp at hin2
              · exact bgEvents_no_registryCreate env jid data dbP tbg jid t2 hin2
          have hkeep := runJobs_no_write p2 (jobsSet jobs₀ jid
            { status := "processing", timestamp := t, result := none, error := none })
            jid hset2 hcr2
          rw [hstep, api_ai_status, hkeep]
          simp [jobsSet]

/-- Witness for C1 at a concrete submission: tool absent, empty JSON body,
fully sequential schedule. -/
theorem submit_registry_create_witness :
    (Event.registryCreate "ab" 0 :: Event.threadStart :: Event.httpReturn "ab" ::
        bgEvents ⟨some "h", false, ExecOutcome.timeout_expired, false, false⟩
          "ab" (ReqBody.dict []) true 1).get? 0 =
      some (Event.registryCreate "ab" 0) := by
  have hv : ValidTrace ⟨some "h", false, ExecOutcome.timeout_expired, false, false⟩
      "ab" (ReqBody.dict []) true 0 1
      (Event.registryCreate "ab" 0 :: Event.threadStart :: Event.httpReturn "ab" ::
        bgEvents ⟨some "h", false, ExecOutcome.timeout_expired, false, false⟩
          "ab" (ReqBody.dict []) true 1) :=
    ⟨Event.httpReturn "ab" ::
        bgEvents ⟨some "h", false, ExecOutcome.timeout_expired, false, false⟩
          "ab" (ReqBody.dict []) true 1,
      by decide, rfl⟩
  exact (submit_registry_create_precedes_start_and_return _ _ _ _ _ _ _ jobs0 hv).1

/-- Counterexample to C4 as stated: a valid trace of a concrete submission
(JSON-object body, db configured, fully sequential schedule) in which no
audit INSERT occurs before the thread start — the INSERT is performed by
the background task itself, after `t.start()`. -/
theorem audit_insert_not_before_thread_start_cex :
    ValidTrace ⟨some "h", false, ExecOutcome.timeout_expired, false, false⟩
      "cd" (ReqBody.dict []) true 0 1
      (Event.registryCreate "cd" 0 :: Event.threadStart :: Event.httpReturn "cd" ::
        bgEvents ⟨some "h", false, ExecOutcome.timeout_expired, false, false⟩
          "cd" (ReqBody.dict []) true 1) ∧
    auditInsertBeforeThreadStartB
      (Event.registryCreate "cd" 0 :: Event.threadStart :: Event.httpReturn "cd" ::
        bgEvents ⟨some "h", false, ExecOutcome.timeout_expired, false, false⟩
          "cd" (ReqBody.dict []) true 1) = false := by
  constructor
  · exact ⟨Event.httpReturn "cd" ::
        bgEvents ⟨some "h", false, ExecOutcome.timeout_expired, false, false⟩
          "cd" (ReqBody.dict []) true 1,
      by decide, rfl⟩
  · decide

/-- C4 amended: for every submission with a JSON-object body, a configured
database and a succeeding INSERT, the audit record with non-null job id and
status `processing` is written by the background task itself — strictly
after the thread start, but strictly before any subprocess call and before
the job's terminal registry write. -/
theorem audit_insert_after_start_before_subprocess
    (env : Env) (jid : String) (fields : List (String × String)) (t tbg : Nat)
    (tr : List Event)
    (h : ValidTrace env jid (ReqBody.dict fields) true t tbg tr)
    (hlog : env.logFail = false) :
    ∃ k, 1 < k ∧
      tr.get? 1 = some Event.threadStart ∧
      tr.get? k = some (Event.auditInsert (some jid) "processing") ∧
      (∀ j, tr.get? j = some Event.subprocessRun → k < j) ∧
      (∀ j en, tr.get? j = some (Event.registrySet jid en) → k < j) := by
  obtain ⟨mix, hmix, rfl⟩ := h
  obtain ⟨rest, hbg⟩ : ∃ rest, bgEvents env jid (ReqBody.dict fields) true tbg =
      Event.auditInsert (some jid) "processing" :: rest := by
    simp only [bgEvents, hlog, and_self, eq_self_iff_true, if_true, List.cons_append,
      List.append_assoc, List.nil_append]
    exact ⟨_, rfl⟩
  rw [hbg] at hmix
  obtain ⟨xs1, xs2, r, hx, hmixeq, _⟩ :=
    interleavesB_cons_right mix [Event.httpReturn jid]
      (Event.auditInsert (some jid) "processing") rest hmix
  subst hmixeq
  cases xs1 with
  | nil =>
      refine ⟨2, by omega, rfl, rfl, ?_, ?_⟩
      · intro j hj
        rcases j with _ | _ | _ | j
        · simp at hj
        · simp at hj
        · simp at hj
        · omega
      · intro j en hj
        rcases j with _ | _ | _ | j
        · simp at hj
        · simp at hj
        · simp at hj
        · omega
  | cons b bs =>
      rw [List.cons_append] at hx
      obtain ⟨hb1, hb2⟩ := List.cons_eq_cons.mp hx
      obtain ⟨hbs, hxs2⟩ := List.append_eq_nil.mp hb2.symm
      subst hb1
      subst hbs
      subst hxs2
      refine ⟨3, by omega, rfl, rfl, ?_, ?_⟩
      · intro j hj
        rcases j with _ | _ | _ | _ | j
        · simp at hj
        · simp at hj
        · simp at hj
        · simp at hj
        · omega
      · intro j en hj
        rcases j with _ | _ | _ | _ | j
        · simp at hj
        · simp at hj
        · simp at hj
        · simp at hj
        · omega

/-- Witness for the amended C4 at a concrete submission with the tool
present and a successful run. -/
theorem audit_insert_after_start_witness :
    ∃ k, 1 < k ∧
      (Event.registryCreate "ef" 0 :: Event.threadStart :: Event.httpReturn "ef" ::
        bgEvents ⟨some "h", true, ExecOutcome.run_ok (some [("completion", "ok")]), false, false⟩
          "ef" (ReqBody.dict []) true 1).get? 1 = some Event.threadStart ∧
      (Event.registryCreate "ef" 0 :: Event.threadStart :: Event.httpReturn "ef" ::
        bgEvents ⟨some "h", true, ExecOutcome.run_ok (some [("completion", "ok")]), false, false⟩
          "ef" (ReqBody.dict []) true 1).get? k =
        some (Event.auditInsert (some "ef") "processing") ∧
      (∀ j, (Event.registryCreate "ef" 0 :: Event.threadStart :: Event.httpReturn "ef" ::
        bgEvents ⟨some "h", true, ExecOutcome.run_ok (some [("completion", "ok")]), false, false⟩
          "ef" (ReqBody.dict []) true 1).get? j = some Event.subprocessRun → k < j) ∧
      (∀ j en, (Event.registryCreate "ef" 0 :: Event.threadStart :: Event.httpReturn "ef" ::
        bgEvents ⟨some "h", true, ExecOutcome.run_ok (some [("completion", "ok")]), false, false⟩
          "ef" (ReqBody.dict []) true 1).get? j = some (Event.registrySet "ef" en) → k < j) := by
  have hv : ValidTrace ⟨some "h", true, ExecOutcome.run_ok (some [("completion", "ok")]), false, false⟩
      "ef" (ReqBody.dict []) true 0 1
      (Event.registryCreate "ef" 0 :: Event.threadStart :: Event.httpReturn "ef" ::
        bgEvents ⟨some "h", true, ExecOutcome.run_ok (some [("completion", "ok")]), false, false⟩
          "ef" (ReqBody.dict []) true 1) :=
    ⟨Event.httpReturn "ef" ::
        bgEvents ⟨some "h", true, ExecOutcome.run_ok (some [("completion", "ok")]), false, false⟩
          "ef" (ReqBody.dict []) true 1,
      by decide, rfl⟩
  exact audit_insert_after_start_before_subprocess _ "ef" [] 0 1 _ hv rfl

/-- C2: a job whose background execution raises an uncaught fault has its
registry entry overwritten with status `error` and an `error` field holding
`str(e)`; and after any background task finishes, the entry for its job id
is never left at `processing`. -/
theorem bg_fault_overwrites_entry_with_error
    (env : Env) (jid : String) (data : ReqBody) (dbP : Bool) (db : DB)
    (jobs : Jobs) (t : Nat) (e : PyExc)
    (h : handle_ai_request env data dbP (some jid) db t = .error e) :
    (process_ai_job env jid data dbP db jobs t).2 jid =
      some { status := "error", timestamp := t, result := none,
             error := some (pyExcMsg e) } ∧
    (∀ env2 data2 dbP2 db2 jobs2 t2, ∃ en,
      (process_ai_job env2 jid data2 dbP2 db2 jobs2 t2).2 jid = some en ∧
      en.status ≠ "processing") := by
  constructor
  · simp [process_ai_job, h, jobsSet]
  · intro env2 data2 dbP2 db2 jobs2 t2
    rcases hh : handle_ai_request env2 data2 dbP2 (some jid) db2 t2 with e2 | ⟨r2, db3⟩
    · exact ⟨{ status := "error", timestamp := t2, result := none,
               error := some (pyExcMsg e2) },
        by simp [process_ai_job, hh, jobsSet], by simp⟩
    · exact ⟨{ status := "completed", timestamp := t2, result := some r2,
               error := none },
        by simp [process_ai_job, hh, jobsSet], by simp⟩

/-- Witness for C2: a POST body that is a truthy JSON non-object (e.g. a
non-empty list) makes `data.get` raise inside the background task. -/
theorem bg_fault_witness :
    (process_ai_job ⟨some "h", true, ExecOutcome.timeout_expired, false, false⟩ "gh"
        (ReqBody.nondict "list" true) true ⟨[], 1⟩ jobs0 7).2 "gh" =
      some { status := "error", timestamp := 7, result := none,
             error := some (attr_get_msg "list") } :=
  (bg_fault_overwrites_entry_with_error
    ⟨some "h", true, ExecOutcome.timeout_expired, false, false⟩ "gh"
    (ReqBody.nondict "list" true) true ⟨[], 1⟩ jobs0 7
    (PyExc.attributeError (attr_get_msg "list")) rfl).1

/-- C3: a job whose invoker returns a failure result without raising gets
registry status `completed` (not `error`), with the result dictionary —
including `success = false` and the `error` string — stored verbatim. -/
theorem invoker_failure_yields_completed_entry
    (env : Env) (jid : String) (data : ReqBody) (dbP : Bool) (db : DB)
    (jobs : Jobs) (t : Nat) (r : AIResult) (db1 : DB)
    (h : handle_ai_request env data dbP (some jid) db t = .ok (r, db1))
    (_hs : r.success = false) :
    (process_ai_job env jid data dbP db jobs t).2 jid =
      some { status := "completed", timestamp := t, result := some r, error := none } ∧
    (∀ x, r.error = some x →
      ((process_ai_job env jid data dbP db jobs t).2 jid).bind
        (fun en => en.result.bind (fun rr => rr.error)) = some x) := by
  constructor
  · simp [process_ai_job, h, jobsSet]
  · intro x hx
    simp [process_ai_job, h, jobsSet, hx]

/-- Witness for C3: tool absent, so the invoker returns a
`success = false` result without raising. -/
theorem invoker_failure_witness :
    (process_ai_job ⟨some "h", false, ExecOutcome.timeout_expired, false, false⟩ "ij"
        (ReqBody.dict [("prompt", "p")]) false ⟨[], 1⟩ jobs0 3).2 "ij" =
      some { status := "completed", timestamp := 3,
             result := some
               { success := false, output := none, raw := none,
                 error := some "Claude CLI not found. Please install anthracite-cli.",
                 prompt_for_clipboard := some (prompt_for_clipboard_text "p" "") },
             error := none } :=
  (invoker_failure_yields_completed_entry
    ⟨some "h", false, ExecOutcome.timeout_expired, false, false⟩ "ij"
    (ReqBody.dict [("prompt", "p")]) false ⟨[], 1⟩ jobs0 3
    { success := false, output := none, raw := none,
      error := some "Claude CLI not found. Please install anthracite-cli.",
      prompt_for_clipboard := some (prompt_for_clipboard_text "p" "") }
    ⟨[], 1⟩ rfl rfl).1

/-- Counterexample to C5 as stated: with the tool absent the fallback
clipboard payload is the fixed `Task: ...\n\nContext HTML:\n...` rendering,
which differs from the combined instruction `full_prompt` actually built
for the tool (here `full_prompt "p" "" = "p"`). -/
theorem fallback_payload_ne_full_prompt_cex :
    handle_ai_request ⟨some "h", false, ExecOutcome.timeout_expired, false, false⟩
        (ReqBody.dict [("prompt", "p")]) false none ⟨[], 1⟩ 0 =
      .ok ({ success := false, output := none, raw := none,
             error := some "Claude CLI not found. Please install anthracite-cli.",
             prompt_for_clipboard := some (prompt_for_clipboard_text "p" "") }, ⟨[], 1⟩) ∧
    full_prompt "p" "" = "p" ∧
    prompt_for_clipboard_text "p" "" ≠ full_prompt "p" "" := by
  refine ⟨rfl, rfl, by decide⟩

/-- C5 amended: when the tool is absent from the path, `handle_ai_request`
returns a ToolNotFound failure whose fallback payload is
`"Task: " ++ prompt ++ "\n\nContext HTML:\n" ++ context` — a fixed
clipboard rendering that is not, in general, the combined instruction
`full_prompt prompt context` composed for the tool. -/
theorem tool_absent_fallback_payload
    (env : Env) (fields : List (String × String)) (dbP : Bool)
    (job_id : Option String) (db : DB) (t : Nat)
    (htool : env.claudeOnPath = false) :
    handle_ai_request env (ReqBody.dict fields) dbP job_id db t =
      .ok ({ success := false, output := none, raw := none,
             error := some "Claude CLI not found. Please install anthracite-cli.",
             prompt_for_clipboard := some (prompt_for_clipboard_text
               (getS fields "prompt" "") (getS fields "context" "")) },
           if dbP then
             log_prompt env db (getS fields "prompt" "") (getS fields "context" "")
               job_id "processing" t
           else db) := by
  simp [handle_ai_request, tool_result, htool]

/-- Witness for the amended C5. -/
theorem tool_absent_fallback_witness :
    handle_ai_request ⟨some "h", false, ExecOutcome.timeout_expired, false, false⟩
        (ReqBody.dict [("prompt", "p"), ("context", "c")]) false none ⟨[], 1⟩ 0 =
      .ok ({ success := false, output := none, raw := none,
             error := some "Claude CLI not found. Please install anthracite-cli.",
             prompt_for_clipboard := some (prompt_for_clipboard_text "p" "c") }, ⟨[], 1⟩) := by
  have := tool_absent_fallback_payload
    ⟨some "h", false, ExecOutcome.timeout_expired, false, false⟩
    [("prompt", "p"), ("context", "c")] false none ⟨[], 1⟩ 0 rfl
  simpa [getS] using this

/-- Helper: the flattened hex rendering of a byte list has two characters
per byte. -/
theorem token_hex_data_length (bytes : List Nat) :
    (List.flatten (bytes.map byteHex)).length = 2 * bytes.length := by
  induction bytes with
  | nil => simp
  | cons b bs ih =>
      simp [byteHex, ih]
      omega

/-- Lowercase hexadecimal characters. -/
def isHexChar (c : Char) : Bool :=
  ("0123456789abcdef".data).any fun d => c = d

/-- Helper: `hexDigit` maps values below 16 to hexadecimal digits. -/
theorem hexDigit_isHexChar : ∀ n < 16, isHexChar (hexDigit n) = true := by decide

/-- Counterexample to C6 as stated: the job id is built from
`secrets.token_hex(8)` — 8 random bytes, 16 hex characters — so the id
space has 256^8 = 2^64 elements, strictly below the claimed 2^128. -/
theorem job_id_entropy_cex :
    ask_ai_token_nbytes < 16 ∧
    256 ^ ask_ai_token_nbytes < 2 ^ 128 ∧
    (token_hex (List.replicate ask_ai_token_nbytes 255)).length = 16 := by
  refine ⟨by decide, by decide, by decide⟩

/-- C6 amended: the generated job identifier encodes exactly 8 bytes of
entropy, hex-encoded as 16 lowercase hexadecimal characters, giving an id
space of 256^8 = 2^64 values. -/
theorem job_id_eight_bytes_hex
    (bytes : List Nat) (hlen : bytes.length = ask_ai_token_nbytes)
    (hb : ∀ b ∈ bytes, b < 256) :
    (token_hex bytes).length = 2 * ask_ai_token_nbytes ∧
    (∀ c ∈ (token_hex bytes).data, isHexChar c = true) ∧
    256 ^ ask_ai_token_nbytes = 2 ^ 64 := by
  refine ⟨?_, ?_, by decide⟩
  · show (String.mk (List.flatten (bytes.map byteHex))).length = 2 * ask_ai_token_nbytes
    have : (String.mk (List.flatten (bytes.map byteHex))).length =
        (List.flatten (bytes.map byteHex)).length := rfl
    rw [this, token_hex_data_length, hlen]
  · intro c hc
    have hc2 : c ∈ List.flatten (bytes.map byteHex) := hc
    rcases List.mem_flatten.mp hc2 with ⟨l, hl, hcl⟩
    rcases List.mem_map.mp hl with ⟨b, hbmem, rfl⟩
    have hblt := hb b hbmem
    simp only [byteHex, List.mem_cons, List.mem_singleton, List.not_mem_nil,
      or_false] at hcl
    rcases hcl with rfl | rfl
    · exact hexDigit_isHexChar (b / 16) (by omega)
    · exact hexDigit_isHexChar (b % 16) (by omega)

/-- Witness for the amended C6 at concrete random bytes. -/
theorem job_id_eight_bytes_witness :
    (token_hex [0, 1, 2, 3, 4, 5, 254, 255]).length = 2 * ask_ai_token_nbytes ∧
    (∀ c ∈ (token_hex [0, 1, 2, 3, 4, 5, 254, 255]).data, isHexChar c = true) ∧
    256 ^ ask_ai_token_nbytes = 2 ^ 64 :=
  job_id_eight_bytes_hex [0, 1, 2, 3, 4, 5, 254, 255] rfl (by decide)

/-- Helper: every result the invoker produces carries `output` and `raw` on
success and an `error` string on failure. -/
theorem tool_result_shape (env : Env) (prompt context : String) :
    ((tool_result env prompt context).success = true →
      (tool_result env prompt context).output.isSome = true ∧
      (tool_result env prompt context).raw.isSome = true) ∧
    ((tool_result env prompt context).success = false →
      (tool_result env prompt context).error.isSome = true) := by
  rcases env with ⟨g, cp, ex, lf, uf⟩
  cases cp
  · simp [tool_result]
  · rcases ex with parsed | _ | stderr | msg
    · rcases parsed with _ | obj <;> simp [tool_result]
    · simp [tool_result]
    · simp [tool_result]
    · simp [tool_result]

/-- Counterexample to C7 as stated: a reachable registry entry (background
task hit an uncaught fault on a truthy non-object body) whose status is not
`processing` and which nevertheless carries no `result` field — the fault
description lives in a top-level `error` field instead. -/
theorem error_entry_lacks_result_cex :
    (process_ai_job ⟨some "h", true, ExecOutcome.timeout_expired, false, false⟩ "kl"
        (ReqBody.nondict "list" true) true ⟨[], 1⟩ jobs0 9).2 "kl" =
      some { status := "error", timestamp := 9, result := none,
             error := some (attr_get_msg "list") } ∧
    ("error" : String) ≠ "processing" := by
  refine ⟨rfl, by decide⟩

/-- C7 amended: every registry entry written by a finished background task
has status `completed` or `error`; a `completed` entry carries a `result`
with `success : Bool` and `output`/`raw` on success or `error` on failure;
an `error` entry carries no `result` but a top-level `error` field. The
`result` field is present only when status is not `processing`. -/
theorem registry_entry_result_shape
    (env : Env) (jid : String) (data : ReqBody) (dbP : Bool) (db : DB)
    (jobs : Jobs) (t : Nat) (en : JobEntry)
    (h : (process_ai_job env jid data dbP db jobs t).2 jid = some en) :
    (en.status = "completed" ∨ en.status = "error") ∧
    (en.result.isSome = true → en.status ≠ "processing") ∧
    (en.status = "completed" → ∃ r, en.result = some r ∧
      (r.success = true → r.output.isSome = true ∧ r.raw.isSome = true) ∧
      (r.success = false → r.error.isSome = true)) ∧
    (en.status = "error" → en.result = none ∧ en.error.isSome = true) ∧
    (∀ body randBytes jobs2 t2,
      (api_ask_ai body randBytes jobs2 t2).1 (token_hex randBytes) =
        some { status := "processing", timestamp := t2, result := none, error := none }) := by
  have hcreate : ∀ (body : Option ReqBody) (randBytes : List Nat) (jobs2 : Jobs) (t2 : Nat),
      (api_ask_ai body randBytes jobs2 t2).1 (token_hex randBytes) =
        some { status := "processing", timestamp := t2, result := none, error := none } := by
    intro body randBytes jobs2 t2
    simp [api_ask_ai, jobsSet]
  cases data with
  | nondict tn tru =>
      simp [process_ai_job, handle_ai_request, jobsSet] at h
      subst h
      refine ⟨Or.inr rfl, by simp, by simp, by simp, hcreate⟩
  | dict fields =>
      simp [process_ai_job, handle_ai_request, jobsSet] at h
      subst h
      refine ⟨Or.inl rfl, by simp, ?_, by simp, hcreate⟩
      intro _
      exact ⟨_, rfl,
        (tool_result_shape env (getS fields "prompt" "") (getS fields "context" "")).1,
        (tool_result_shape env (getS fields "prompt" "") (getS fields "context" "")).2⟩

/-- Witness for the amended C7 at a concrete finished job. -/
theorem registry_entry_result_shape_witness :
    (({ status := "completed", timestamp := 3,
        result := some
          { success := false, output := none, raw := none,
            error := some "Claude CLI not found. Please install anthracite-cli.",
            prompt_for_clipboard := some (prompt_for_clipboard_text "p" "") },
        error := none } : JobEntry).status = "completed" ∨
      ({ status := "completed", timestamp := 3,
         result := some
           { success := false, output := none, raw := none,
             error := some "Claude CLI not found. Please install anthracite-cli.",
             prompt_for_clipboard := some (prompt_for_clipboard_text "p" "") },
         error := none } : JobEntry).status = "error") :=
  (registry_entry_result_shape
    ⟨some "h", false, ExecOutcome.timeout_expired, false, false⟩ "ij"
    (ReqBody.dict [("prompt", "p")]) false ⟨[], 1⟩ jobs0 3 _ rfl).1

/-- Helper: under nonnegative LIMIT and OFFSET, the SQL window is
drop-then-take. -/
theorem sqlWindow_nonneg (rows : List AuditRow) (limit offset : Int)
    (ho : 0 ≤ offset) (hl : 0 ≤ limit) :
    sqlWindow rows limit offset = (rows.drop offset.toNat).take limit.toNat := by
  unfold sqlWindow
  have hnl : ¬limit < 0 := not_lt.mpr hl
  by_cases hz : offset ≤ 0
  · have : offset = 0 := le_antisymm hz ho
    subst this
    simp [hnl]
  · simp [hz, hnl]

/-- Helper: the sorted table is pairwise descending in timestamp. -/
theorem sortDesc_pairwise (rows : List AuditRow) :
    List.Pairwise (fun a b => b.timestamp ≤ a.timestamp) (sortDesc rows) := by
  have h := @List.sorted_mergeSort AuditRow
    (fun a b : AuditRow => decide (b.timestamp ≤ a.timestamp))
    (fun a b c hab hbc => by
      simp only [decide_eq_true_eq] at *
      omega)
    (fun a b => by
      simp only [Bool.or_eq_true, decide_eq_true_eq]
      omega)
    rows
  exact h.imp fun hab => of_decide_eq_true hab

/-- Helper: the sorted table is a permutation of the table. -/
theorem sortDesc_perm (rows : List AuditRow) : (sortDesc rows).Perm rows :=
  List.mergeSort_perm rows _

/-- C8: the audit-history listing returns at most `limit` records, in
descending creation-time order, skipping `(page - 1) * limit` records of
the timestamp-sorted table (record `k` of the page is record
`offset + k` of the sorted table), and the returned `total` is the full
row count of the table regardless of the pagination window. -/
theorem history_pagination_window
    (db : DB) (page limit : Int) (hp : 1 ≤ page) (hl : 0 ≤ limit) :
    (api_ai_history_route false db page limit).success = true ∧
    (api_ai_history_route false db page limit).total = db.rows.length ∧
    (api_ai_history_route false db page limit).history.length ≤ limit.toNat ∧
    List.Pairwise (fun a b => b.timestamp ≤ a.timestamp)
      (api_ai_history_route false db page limit).history ∧
    (∀ k, k < limit.toNat →
      (api_ai_history_route false db page limit).history[k]? =
        (sortDesc db.rows)[((page - 1) * limit).toNat + k]?) ∧
    (sortDesc db.rows).Perm db.rows := by
  have hoff : 0 ≤ (page - 1) * limit := mul_nonneg (by omega) hl
  have hwin : (api_ai_history_route false db page limit).history =
      ((sortDesc db.rows).drop ((page - 1) * limit).toNat).take limit.toNat := by
    simp [api_ai_history_route, get_history, sqlWindow_nonneg _ _ _ hoff hl]
  refine ⟨rfl, rfl, ?_, ?_, ?_, sortDesc_perm db.rows⟩
  · rw [hwin]
    simp [List.length_take]
  · rw [hwin]
    exact List.Pairwise.sublist
      ((List.take_sublist _ _).trans (List.drop_sublist _ _))
      (sortDesc_pairwise db.rows)
  · intro k hk
    rw [hwin, List.getElem?_take_of_lt hk, List.getElem?_drop]

/-- Witness for C8 at a concrete three-row table with `page = 2`,
`limit = 1`. -/
theorem history_pagination_witness :
    (api_ai_history_route false
      ⟨[⟨1, 10, "p1", "c1", none, "g", none, none, none⟩,
        ⟨2, 20, "p2", "c2", none, "g", none, none, none⟩,
        ⟨3, 30, "p3", "c3", none, "g", none, none, none⟩], 4⟩ 2 1).total =
      ([⟨1, 10, "p1", "c1", none, "g", none, none, none⟩,
        ⟨2, 20, "p2", "c2", none, "g", none, none, none⟩,
        ⟨3, 30, "p3", "c3", none, "g", none, none, none⟩] : List AuditRow).length :=
  (history_pagination_window
    ⟨[⟨1, 10, "p1", "c1", none, "g", none, none, none⟩,
      ⟨2, 20, "p2", "c2", none, "g", none, none, none⟩,
      ⟨3, 30, "p3", "c3", none, "g", none, none, none⟩], 4⟩ 2 1
    (by decide) (by decide)).2.1

/-- C9: `update_history_commit` returns `true` whenever the store operation
itself does not raise — including for record ids matching no row, in which
case the table is unchanged — and returns `false` exactly when the store
operation raises (in which case the table is also unchanged). -/
theorem update_commit_ignores_row_count
    (db : DB) (hist_id : Nat) (commit_hash : Option String) :
    (update_history_commit false db hist_id commit_hash).2 = true ∧
    ((∀ r ∈ db.rows, r.id ≠ hist_id) →
      (update_history_commit false db hist_id commit_hash).1 = db) ∧
    (update_history_commit true db hist_id commit_hash).2 = false ∧
    (update_history_commit true db hist_id commit_hash).1 = db := by
  refine ⟨rfl, ?_, rfl, rfl⟩
  intro hnone
  have hmap : ∀ rows : List AuditRow, (∀ r ∈ rows, r.id ≠ hist_id) →
      rows.map (fun r =>
        if r.id = hist_id then { r with git_hash_after := commit_hash } else r) = rows := by
    intro rows hr
    induction rows with
    | nil => rfl
    | cons a as ih =>
        simp [hr a (List.mem_cons_self a as),
          ih fun r hmem => hr r (List.mem_cons_of_mem a hmem)]
  simp [update_history_commit, hmap db.rows hnone]

/-- Witness for C9: a one-row table and a non-existent record id. -/
theorem update_commit_witness :
    (update_history_commit false
        ⟨[⟨1, 10, "p1", "c1", none, "g", none, none, none⟩], 2⟩ 5 (some "abc")).2 = true ∧
    (update_history_commit false
        ⟨[⟨1, 10, "p1", "c1", none, "g", none, none, none⟩], 2⟩ 5 (some "abc")).1 =
      ⟨[⟨1, 10, "p1", "c1", none, "g", none, none, none⟩], 2⟩ := by
  have h := update_commit_ignores_row_count
    ⟨[⟨1, 10, "p1", "c1", none, "g", none, none, none⟩], 2⟩ 5 (some "abc")
  exact ⟨h.1, h.2.1 (by decide)⟩

/-- C10: a PUT whose body is absent or lacks the `commit_hash` key still
succeeds with HTTP 200 and `success = true`, and unconditionally sets
`git_hash_after` to NULL on every row with the given id, erasing any
previously linked commit hash (other rows are unchanged). -/
theorem put_missing_commit_hash_nulls
    (db : DB) (hist_id : Nat) (body : Option ReqBody)
    (fields : List (String × String))
    (hbody : or_empty_dict body = ReqBody.dict fields)
    (hck : fields.lookup "commit_hash" = none) :
    api_update_history_route false db hist_id body =
      .ok ({ db with rows := db.rows.map fun r =>
               if r.id = hist_id then { r with git_hash_after := none } else r },
           { success := true, error := none, http_code := 200 }) := by
  simp [api_update_history_route, hbody, hck, update_history_commit]

/-- Witness for C10: absent body, one row whose previously linked commit
hash is erased. -/
theorem put_missing_commit_hash_witness :
    api_update_history_route false
        ⟨[⟨1, 10, "p1", "c1", none, "g", some "oldhash", none, none⟩], 2⟩ 1 none =
      .ok (⟨[⟨1, 10, "p1", "c1", none, "g", none, none, none⟩], 2⟩,
           { success := true, error := none, http_code := 200 }) := by
  have h := put_missing_commit_hash_nulls
    ⟨[⟨1, 10, "p1", "c1", none, "g", some "oldhash", none, none⟩], 2⟩ 1 none [] rfl rfl
  simpa using h
